import Mathlib

/-!
Verification of the analytics event-log service (`app.py`, `restaura_db.py`).

The store is a single SQLite table `access_logs(id, user_id, page, ip, browser,
timestamp)`.  Timestamps are always produced by the ingestion path as
`strftime("%Y-%m-%d %H:%M:%S")`, so we embed them as a structured record
together with its rendering to the stored text, and we embed SQLite's BINARY
text comparison (memcmp on the bytes, here code points of the ASCII rendering)
as an explicit lexicographic comparison on character lists.
-/

set_option maxHeartbeats 1000000

namespace Analytics

/-- One decimal digit character. -/
def dig (n : Nat) : Char := Nat.digitChar n

/-- Python `f"{n:02d}"` for the values the API validation admits (`n < 100`). -/
def pad2 (n : Nat) : List Char := [dig ((n / 10) % 10), dig (n % 10)]

/-- Python `f"{n}"` / SQLite `strftime` year field for `1000 ≤ n ≤ 9999`
(the API validates `2000 ≤ ano ≤ 2100`). -/
def pad4 (n : Nat) : List Char := pad2 (n / 100) ++ pad2 (n % 100)

/-- SQLite BINARY text collation: memcmp-style strict lexicographic order. -/
def strLt : List Char → List Char → Bool
  | _, [] => false
  | [], _ :: _ => true
  | a :: as, b :: bs => if a < b then true else if a = b then strLt as bs else false

/-- Stored timestamp, as produced by
`datetime.now(America/Sao_Paulo).strftime("%Y-%m-%d %H:%M:%S")`. -/
structure Timestamp where
  year : Nat
  month : Nat
  day : Nat
  hour : Nat
  minute : Nat
  second : Nat
deriving DecidableEq, Repr

/-- Field bounds every ingested timestamp satisfies. -/
def Timestamp.Valid (t : Timestamp) : Prop :=
  1 ≤ t.month ∧ t.month ≤ 12 ∧ 1 ≤ t.day ∧ t.day ≤ 31 ∧
    t.hour ≤ 23 ∧ t.minute ≤ 59 ∧ t.second ≤ 59 ∧ t.year ≤ 9999

instance (t : Timestamp) : Decidable t.Valid := by
  unfold Timestamp.Valid; infer_instance

/-- The text stored in the `timestamp` column :  `YYYY-MM-DD HH:MM:SS`. -/
def tsChars (t : Timestamp) : List Char :=
  pad4 t.year ++ ('-' :: pad2 t.month) ++ ('-' :: pad2 t.day) ++
    (' ' :: pad2 t.hour) ++ (':' :: pad2 t.minute) ++ (':' :: pad2 t.second)

/-- SQLite `date(timestamp)` on a well-formed stored timestamp :  `YYYY-MM-DD`. -/
def dateChars (t : Timestamp) : List Char :=
  pad4 t.year ++ ('-' :: pad2 t.month) ++ ('-' :: pad2 t.day)

/-- One row of `access_logs`. -/
structure Event where
  id : Nat
  user_id : String
  page : String
  ip : String
  browser : String
  timestamp : Timestamp
deriving DecidableEq, Repr

/-! ### Month/year windows (`get_page_counts_and_uniques_by_month_year`,
`get_recurrence_by_page`, `get_logs_by_page_and_month_year`) ;
`start_date = f"{ano}-{mes:02d}-01"` and the December rollover. -/

/-- The string `f"{ano}-{mes:02d}-01"` from the source. -/
def monthStartChars (mes ano : Nat) : List Char :=
  pad4 ano ++ ('-' :: pad2 mes) ++ ['-', '0', '1']

/-- The `end_date` computed in the source: January of `ano+1` when `mes = 12`. -/
def monthEndChars (mes ano : Nat) : List Char :=
  if mes = 12 then monthStartChars 1 (ano + 1) else monthStartChars (mes + 1) ano

/-- The SQL filter `timestamp >= start_date AND timestamp < end_date`. -/
def inMonthRange (mes ano : Nat) (t : Timestamp) : Bool :=
  !strLt (tsChars t) (monthStartChars mes ano) &&
    strLt (tsChars t) (monthEndChars mes ano)

/-- The filter of `get_logs_by_month_year`:
`strftime('%m', timestamp) = mes_str AND strftime('%Y', timestamp) = ano_str`,
with `mes_str = f"{mes:02d}"` and `ano_str = str(ano)`. -/
def inMonthStrftime (mes ano : Nat) (t : Timestamp) : Bool :=
  decide (pad2 t.month = pad2 mes) && decide (pad4 t.year = pad4 ano)

/-- Lexicographic (calendar) order on structured timestamps: the order of the
half-open month windows in the specification. -/
def tsSpecLt (a b : Timestamp) : Prop :=
  a.year < b.year ∨ (a.year = b.year ∧
    (a.month < b.month ∨ (a.month = b.month ∧
      (a.day < b.day ∨ (a.day = b.day ∧
        (a.hour < b.hour ∨ (a.hour = b.hour ∧
          (a.minute < b.minute ∨ (a.minute = b.minute ∧
            a.second < b.second)))))))))

instance (a b : Timestamp) : Decidable (tsSpecLt a b) := by
  unfold tsSpecLt; infer_instance

/-- First instant of a month. -/
def firstOfMonth (mes ano : Nat) : Timestamp := ⟨ano, mes, 1, 0, 0, 0⟩

/-- First instant of the following month, December rolling to January. -/
def firstOfNextMonth (mes ano : Nat) : Timestamp :=
  if mes = 12 then ⟨ano + 1, 1, 1, 0, 0, 0⟩ else ⟨ano, mes + 1, 1, 0, 0, 0⟩

/-! ### Order lemmas for the text comparison -/

theorem strLt_append (xs xs' ys ys' : List Char) (h : xs.length = xs'.length) :
    strLt (xs ++ ys) (xs' ++ ys') =
      (if strLt xs xs' then true else if xs = xs' then strLt ys ys' else false) := by
  induction xs generalizing xs' with
  | nil =>
    cases xs' with
    | nil => simp [strLt]
    | cons b bs => simp at h
  | cons a as ih =>
    cases xs' with
    | nil => simp at h
    | cons b bs =>
      simp only [List.length_cons, Nat.succ.injEq] at h
      simp only [List.cons_append, strLt, List.append_eq]
      rw [ih bs h]
      by_cases hab : a < b
      · simp [hab]
      · by_cases heq : a = b
        · subst heq
          simp only [hab, if_false, if_pos rfl, List.cons.injEq, true_and]
          by_cases h2 : strLt as bs
          · simp [h2]
          · by_cases h3 : as = bs <;> simp [h2, h3]
        · simp [hab, heq]

theorem strLt_nil_right (xs : List Char) : strLt xs [] = false := by
  cases xs <;> rfl

theorem pad2_length (n : Nat) : (pad2 n).length = 2 := rfl

theorem pad4_length (n : Nat) : (pad4 n).length = 4 := rfl

set_option maxRecDepth 4000 in
theorem pad2_lt : ∀ a < 100, ∀ b < 100,
    strLt (pad2 a) (pad2 b) = decide (a < b) := by decide

set_option maxRecDepth 4000 in
theorem pad2_injEq : ∀ a < 100, ∀ b < 100,
    (pad2 a = pad2 b) ↔ a = b := by decide

theorem pad4_lt (a b : Nat) (ha : a < 10000) (hb : b < 10000) :
    strLt (pad4 a) (pad4 b) = decide (a < b) := by
  have hma : a % 100 < 100 := Nat.mod_lt _ (by omega)
  have hmb : b % 100 < 100 := Nat.mod_lt _ (by omega)
  have hda : a / 100 < 100 := by omega
  have hdb : b / 100 < 100 := by omega
  have hdm_a := Nat.div_add_mod a 100
  have hdm_b := Nat.div_add_mod b 100
  unfold pad4
  rw [strLt_append _ _ _ _ (by simp [pad2_length]),
      pad2_lt _ hda _ hdb, pad2_lt _ hma _ hmb]
  by_cases h1 : a / 100 < b / 100
  · rw [if_pos (by simpa using h1)]
    have hab : a < b := by omega
    simp [hab]
  · rw [if_neg (by simpa using h1)]
    by_cases h2 : a / 100 = b / 100
    · rw [if_pos ((pad2_injEq _ hda _ hdb).mpr h2)]
      exact decide_eq_decide.mpr (by omega)
    · rw [if_neg (fun hc => h2 ((pad2_injEq _ hda _ hdb).mp hc))]
      have hab : ¬ a < b := by omega
      simp [hab]

theorem pad4_injEq (a b : Nat) (ha : a < 10000) (hb : b < 10000) :
    (pad4 a = pad4 b) ↔ a = b := by
  unfold pad4
  constructor
  · intro h
    have hlen : (pad2 (a / 100)).length = (pad2 (b / 100)).length := by
      simp [pad2_length]
    have h1 := List.append_inj_left h hlen
    have h2 := List.append_inj_right h hlen
    have e1 : a / 100 = b / 100 := (pad2_injEq _ (by omega) _ (by omega)).mp h1
    have e2 : a % 100 = b % 100 := (pad2_injEq _ (Nat.mod_lt _ (by omega)) _ (Nat.mod_lt _ (by omega))).mp h2
    have := Nat.div_add_mod a 100
    have := Nat.div_add_mod b 100
    omega
  · intro h; rw [h]

theorem strLt_cons_same (c : Char) (xs ys : List Char) :
    strLt (c :: xs) (c :: ys) = strLt xs ys := by
  simp [strLt, lt_irrefl]

theorem pad2_one : pad2 1 = ['0', '1'] := rfl

/-- Day-level comparison against the `-01` suffix of a month boundary: a stored
timestamp whose day field is at least 1 never compares below it. -/
theorem strLt_day_suffix (d : Nat) (tail : List Char) (hd1 : 1 ≤ d) (hd : d < 100) :
    strLt (('-' :: pad2 d) ++ tail) ['-', '0', '1'] = false := by
  have h01 : ('-' :: pad2 d) ++ tail = '-' :: (pad2 d ++ tail) := rfl
  have h02 : (['-', '0', '1'] : List Char) = '-' :: (pad2 1 ++ []) := rfl
  rw [h01, h02, strLt_cons_same, strLt_append _ _ _ _ (by simp [pad2_length])]
  have hlt : ¬ d < 1 := by omega
  simp [pad2_lt d hd 1 (by omega), strLt_nil_right, hlt, ite_self]

/-- Month-and-day-level comparison against the `MM-01` suffix. -/
theorem strLt_month_suffix (mo m d : Nat) (tail : List Char)
    (hmo : mo < 100) (hm : m < 100) (hd1 : 1 ≤ d) (hd : d < 100) :
    strLt (('-' :: pad2 mo) ++ (('-' :: pad2 d) ++ tail))
        (('-' :: pad2 m) ++ ['-', '0', '1']) = decide (mo < m) := by
  have h01 : ('-' :: pad2 mo) ++ (('-' :: pad2 d) ++ tail)
      = '-' :: (pad2 mo ++ (('-' :: pad2 d) ++ tail)) := rfl
  have h02 : ('-' :: pad2 m) ++ (['-', '0', '1'] : List Char)
      = '-' :: (pad2 m ++ ['-', '0', '1']) := rfl
  rw [h01, h02, strLt_cons_same, strLt_append _ _ _ _ (by simp [pad2_length])]
  rw [pad2_lt _ hmo _ hm, strLt_day_suffix d tail hd1 hd]
  by_cases h : mo < m
  · simp [h]
  · rw [if_neg (by simpa using h)]
    simp [h, ite_self]

/-- Master lemma: comparing a stored timestamp text against a month-boundary
string `YYYY-MM-01` decides the lexicographic (year, month) order, because the
day field of a real timestamp is at least 1. -/
theorem strLt_tsChars_monthStart (t : Timestamp) (m a : Nat)
    (hy : t.year ≤ 9999) (ha : a ≤ 9999) (hmo : t.month < 100) (hm : m < 100)
    (hd1 : 1 ≤ t.day) (hd : t.day < 100) :
    strLt (tsChars t) (monthStartChars m a)
      = decide (t.year < a ∨ (t.year = a ∧ t.month < m)) := by
  have h01 : tsChars t = pad4 t.year ++ (('-' :: pad2 t.month) ++ (('-' :: pad2 t.day) ++
      ((' ' :: pad2 t.hour) ++ ((':' :: pad2 t.minute) ++ (':' :: pad2 t.second))))) := by
    simp [tsChars, List.append_assoc]
  have h02 : monthStartChars m a = pad4 a ++ (('-' :: pad2 m) ++ ['-', '0', '1']) := by
    simp [monthStartChars, List.append_assoc]
  rw [h01, h02, strLt_append _ _ _ _ (by simp [pad4_length])]
  rw [pad4_lt _ _ (by omega) (by omega)]
  rw [strLt_month_suffix _ _ _ _ hmo hm hd1 hd]
  by_cases h1 : t.year < a
  · rw [if_pos (by simpa using h1)]
    simp [h1]
  · rw [if_neg (by simpa using h1)]
    by_cases h2 : t.year = a
    · rw [if_pos ((pad4_injEq _ _ (by omega) (by omega)).mpr h2)]
      exact decide_eq_decide.mpr (by omega)
    · rw [if_neg (fun hc => h2 ((pad4_injEq _ _ (by omega) (by omega)).mp hc))]
      have : ¬ (t.year < a ∨ (t.year = a ∧ t.month < m)) := by omega
      simp [this]

/-- Claim C2, main content as a boolean evaluation of the SQL filter. -/
theorem inMonthRange_eq (mes ano : Nat) (t : Timestamp)
    (hm1 : 1 ≤ mes) (hm2 : mes ≤ 12) (ha1 : 2000 ≤ ano) (ha2 : ano ≤ 2100)
    (hv : t.Valid) :
    inMonthRange mes ano t = decide (t.year = ano ∧ t.month = mes) := by
  obtain ⟨h1, h2, h3, h4, h5, h6, h7, h8⟩ := hv
  unfold inMonthRange monthEndChars
  by_cases h12 : mes = 12
  · rw [if_pos h12]
    rw [strLt_tsChars_monthStart t mes ano h8 (by omega) (by omega) (by omega) h3 (by omega)]
    rw [strLt_tsChars_monthStart t 1 (ano + 1) h8 (by omega) (by omega) (by omega) h3 (by omega)]
    subst h12
    rcases Nat.lt_trichotomy t.year ano with hy | hy | hy
    · have e1 : (t.year < ano ∨ (t.year = ano ∧ t.month < 12)) := Or.inl hy
      have e2 : ¬ (t.year = ano ∧ t.month = 12) := by omega
      simp [e1, e2]
    · have e1 : ¬ (t.year < ano) := by omega
      by_cases hmo : t.month = 12
      · have e2 : ¬ (t.year < ano ∨ (t.year = ano ∧ t.month < 12)) := by omega
        have e3 : (t.year < ano + 1 ∨ (t.year = ano + 1 ∧ t.month < 1)) := by omega
        have e4 : (t.year = ano ∧ t.month = 12) := by omega
        simp [e2, e3, e4]
      · have e2 : (t.year < ano ∨ (t.year = ano ∧ t.month < 12)) := by omega
        have e4 : ¬ (t.year = ano ∧ t.month = 12) := by omega
        simp [e2, e4]
    · have e2 : ¬ (t.year < ano ∨ (t.year = ano ∧ t.month < 12)) := by omega
      have e3 : ¬ (t.year < ano + 1 ∨ (t.year = ano + 1 ∧ t.month < 1)) := by omega
      have e4 : ¬ (t.year = ano ∧ t.month = 12) := by omega
      simp [e2, e3, e4]
      omega
  · rw [if_neg h12]
    rw [strLt_tsChars_monthStart t mes ano h8 (by omega) (by omega) (by omega) h3 (by omega)]
    rw [strLt_tsChars_monthStart t (mes + 1) ano h8 (by omega) (by omega) (by omega) h3 (by omega)]
    by_cases hin : t.year = ano ∧ t.month = mes
    · have e1 : ¬ (t.year < ano ∨ (t.year = ano ∧ t.month < mes)) := by omega
      have e2 : (t.year < ano ∨ (t.year = ano ∧ t.month < mes + 1)) := by omega
      simp [e1, e2, hin]
    · by_cases e1 : (t.year < ano ∨ (t.year = ano ∧ t.month < mes))
      · simp [e1, hin]
      · have e2 : ¬ (t.year < ano ∨ (t.year = ano ∧ t.month < mes + 1)) := by omega
        simp [e1, e2, hin]

/-- The `strftime`-based filter of `get_logs_by_month_year` agrees. -/
theorem inMonthStrftime_eq (mes ano : Nat) (t : Timestamp)
    (hm2 : mes ≤ 12) (ha2 : ano ≤ 2100) (hmo : t.month < 100) (hy : t.year ≤ 9999) :
    inMonthStrftime mes ano t = decide (t.year = ano ∧ t.month = mes) := by
  unfold inMonthStrftime
  by_cases h1 : t.month = mes <;> by_cases h2 : t.year = ano
  · simp [h1, h2]
  · have hne : pad4 t.year ≠ pad4 ano :=
      fun hc => h2 ((pad4_injEq _ _ (by omega) (by omega)).mp hc)
    simp [h2, hne]
  · have hne : pad2 t.month ≠ pad2 mes :=
      fun hc => h1 ((pad2_injEq _ hmo _ (by omega)).mp hc)
    simp [h1, hne]
  · have hne : pad2 t.month ≠ pad2 mes :=
      fun hc => h1 ((pad2_injEq _ hmo _ (by omega)).mp hc)
    simp [h1, hne]

/-- Claim C2: for every valid `(mes, ano)` and every well-formed stored
timestamp, the month filters of the source select exactly the timestamps in
the half-open interval `[ano-mes-01, first instant of the next month)`, with
December rolling over to January of `ano+1`; the interval-comparison filter of
`get_page_counts_and_uniques_by_month_year` and the `strftime` filter of
`get_logs_by_month_year` agree. -/
theorem claim_C2_month_window (mes ano : Nat) (t : Timestamp)
    (hm1 : 1 ≤ mes) (hm2 : mes ≤ 12) (ha1 : 2000 ≤ ano) (ha2 : ano ≤ 2100)
    (hv : t.Valid) :
    (inMonthRange mes ano t = true ↔
      (¬ tsSpecLt t (firstOfMonth mes ano) ∧ tsSpecLt t (firstOfNextMonth mes ano)))
    ∧ inMonthStrftime mes ano t = inMonthRange mes ano t := by
  have hv2 := hv
  obtain ⟨h1, h2, h3, h4, h5, h6, h7, h8⟩ := hv2
  refine ⟨?_, ?_⟩
  · rw [inMonthRange_eq mes ano t hm1 hm2 ha1 ha2 hv]
    simp only [decide_eq_true_eq]
    unfold tsSpecLt firstOfMonth firstOfNextMonth
    by_cases h12 : mes = 12
    · rw [if_pos h12]
      subst h12
      dsimp only
      constructor
      · intro hin
        omega
      · intro hin
        omega
    · rw [if_neg h12]
      dsimp only
      constructor
      · intro hin
        omega
      · intro hin
        omega
  · rw [inMonthRange_eq mes ano t hm1 hm2 ha1 ha2 hv,
        inMonthStrftime_eq mes ano t hm2 ha2 (by omega) h8]

/-- Witness for Claim C2: concrete instantiation at `mes = 12, ano = 2025`
and the boundary timestamp `2026-01-01 00:00:00`, which both filters exclude. -/
theorem claim_C2_month_window_witness :
    ((1 ≤ 12 ∧ 12 ≤ 12 ∧ 2000 ≤ 2025 ∧ 2025 ≤ 2100) ∧
      (⟨2026, 1, 1, 0, 0, 0⟩ : Timestamp).Valid) ∧
    ((inMonthRange 12 2025 ⟨2026, 1, 1, 0, 0, 0⟩ = true ↔
        (¬ tsSpecLt ⟨2026, 1, 1, 0, 0, 0⟩ (firstOfMonth 12 2025) ∧
          tsSpecLt ⟨2026, 1, 1, 0, 0, 0⟩ (firstOfNextMonth 12 2025)))
      ∧ inMonthStrftime 12 2025 ⟨2026, 1, 1, 0, 0, 0⟩ = inMonthRange 12 2025 ⟨2026, 1, 1, 0, 0, 0⟩)
    ∧ inMonthRange 12 2025 ⟨2026, 1, 1, 0, 0, 0⟩ = false :=
  ⟨⟨by decide, by decide⟩,
    claim_C2_month_window 12 2025 ⟨2026, 1, 1, 0, 0, 0⟩ (by decide) (by decide)
      (by decide) (by decide) (by decide),
    by decide⟩

/-! ### Order facts for the binary text comparison -/

theorem strLt_irrefl (xs : List Char) : strLt xs xs = false := by
  induction xs with
  | nil => rfl
  | cons a as ih => rw [strLt_cons_same]; exact ih

theorem strLt_asymm : ∀ xs ys : List Char, strLt xs ys = true → strLt ys xs = false := by
  intro xs
  induction xs with
  | nil =>
    intro ys h
    cases ys with
    | nil => simp [strLt] at h
    | cons b bs => rfl
  | cons a as ih =>
    intro ys h
    cases ys with
    | nil => simp [strLt_nil_right] at h
    | cons b bs =>
      simp only [strLt] at h ⊢
      by_cases hab : a < b
      · have h1 : ¬ b < a := lt_asymm hab
        have h2 : b ≠ a := ne_of_gt hab
        simp [h1, h2]
      · by_cases heq : a = b
        · subst heq
          simp only [if_neg hab, if_pos rfl] at h ⊢
          exact ih bs h
        · simp [hab, heq] at h

theorem strLt_trans : ∀ xs ys zs : List Char,
    strLt xs ys = true → strLt ys zs = true → strLt xs zs = true := by
  intro xs
  induction xs with
  | nil =>
    intro ys zs h1 h2
    cases zs with
    | nil =>
      cases ys with
      | nil => exact h1
      | cons b bs => simp [strLt_nil_right] at h2
    | cons c cs => rfl
  | cons a as ih =>
    intro ys zs h1 h2
    cases ys with
    | nil => simp [strLt_nil_right] at h1
    | cons b bs =>
      cases zs with
      | nil => simp [strLt_nil_right] at h2
      | cons c cs =>
        simp only [strLt] at h1 h2 ⊢
        by_cases h_ab : a < b <;> by_cases h_bc : b < c
        · simp [lt_trans h_ab h_bc]
        · by_cases hbc : b = c
          · subst hbc; simp [h_ab]
          · simp [h_bc, hbc] at h2
        · by_cases hab : a = b
          · subst hab; simp [h_bc]
          · simp [h_ab, hab] at h1
        · by_cases hab : a = b
          · subst hab
            by_cases hbc : a = c
            · subst hbc
              simp only [if_neg h_ab, if_pos rfl] at h1 h2 ⊢
              exact ih bs cs h1 h2
            · simp [h_bc, hbc] at h2
          · simp [h_ab, hab] at h1

theorem strLt_connex : ∀ xs ys : List Char,
    strLt xs ys = false → strLt ys xs = false → xs = ys := by
  intro xs
  induction xs with
  | nil =>
    intro ys h1 h2
    cases ys with
    | nil => rfl
    | cons b bs => simp [strLt] at h1
  | cons a as ih =>
    intro ys h1 h2
    cases ys with
    | nil => simp [strLt] at h2
    | cons b bs =>
      simp only [strLt] at h1 h2
      by_cases hab : a < b
      · simp [hab] at h1
      · by_cases hba : b < a
        · simp [hba] at h2
        · have heq : a = b := le_antisymm (not_lt.mp hba) (not_lt.mp hab)
          subst heq
          simp only [if_neg hab, if_pos rfl] at h1 h2
          rw [ih bs h1 h2]

theorem strLt_false_trans (x y z : List Char)
    (h1 : strLt x y = false) (h2 : strLt y z = false) : strLt x z = false := by
  by_cases hxz : strLt x z = true
  · by_cases hyx : strLt y x = true
    · have := strLt_trans y x z hyx hxz
      rw [this] at h2
      exact absurd h2 (by simp)
    · have hxy : x = y := strLt_connex x y h1 (Bool.not_eq_true _ ▸ hyx)
      subst hxy
      rw [hxz] at h2
      exact absurd h2 (by simp)
  · exact Bool.not_eq_true _ ▸ hxz

/-! ### Ordering relations used by the SQL `ORDER BY` clauses -/

/-- `ORDER BY timestamp DESC` row order: earlier row has the later (or equal)
timestamp text. -/
def evDesc (a b : Event) : Prop :=
  strLt (tsChars a.timestamp) (tsChars b.timestamp) = false

/-- `ORDER BY timestamp ASC` row order. -/
def evAsc (a b : Event) : Prop :=
  strLt (tsChars b.timestamp) (tsChars a.timestamp) = false

instance : DecidableRel evDesc := fun a b => by unfold evDesc; infer_instance

instance : DecidableRel evAsc := fun a b => by unfold evAsc; infer_instance

instance : IsTotal Event evDesc :=
  ⟨fun a b => by
    unfold evDesc
    by_cases h : strLt (tsChars a.timestamp) (tsChars b.timestamp) = true
    · exact Or.inr (strLt_asymm _ _ h)
    · exact Or.inl (Bool.not_eq_true _ ▸ h)⟩

instance : IsTrans Event evDesc :=
  ⟨fun _ _ _ h1 h2 => strLt_false_trans _ _ _ h1 h2⟩

instance : IsTotal Event evAsc :=
  ⟨fun a b => by
    unfold evAsc
    by_cases h : strLt (tsChars b.timestamp) (tsChars a.timestamp) = true
    · exact Or.inr (strLt_asymm _ _ h)
    · exact Or.inl (Bool.not_eq_true _ ▸ h)⟩

instance : IsTrans Event evAsc :=
  ⟨fun _ _ _ h1 h2 => strLt_false_trans _ _ _ h2 h1⟩

/-- `ORDER BY count DESC` for the suspicious-IP aggregation. -/
def countDesc (a b : String × Nat) : Prop := b.2 ≤ a.2

instance : DecidableRel countDesc := fun a b => by unfold countDesc; infer_instance

instance : IsTotal (String × Nat) countDesc := ⟨fun a b => Nat.le_total b.2 a.2⟩

instance : IsTrans (String × Nat) countDesc :=
  ⟨fun _ _ _ h1 h2 => le_trans h2 h1⟩

/-- Python `sorted` on page strings (ascending code-point order). -/
def pageAsc (a b : String) : Prop := strLt b.data a.data = false

instance : DecidableRel pageAsc := fun a b => by unfold pageAsc; infer_instance

/-- `ORDER BY date(timestamp) DESC` for the daily summary rows. -/
def dateDesc (a b : List Char × Nat × Nat) : Prop := strLt a.1 b.1 = false

instance : DecidableRel dateDesc := fun a b => by unfold dateDesc; infer_instance

/-! ### Paginated list (`get_access_logs`) -/

/-- `SELECT * FROM access_logs ORDER BY timestamp {order}` with the validated
`asc|desc` direction. -/
def orderedLogs (store : List Event) (sortAsc : Bool) : List Event :=
  if sortAsc then List.insertionSort evAsc store else List.insertionSort evDesc store

/-- `GET /access_logs`: the ordered rows windowed by
`LIMIT page_size OFFSET (page - 1) * page_size`. -/
def get_access_logs (store : List Event) (page page_size : Nat) (sortAsc : Bool) : List Event :=
  ((orderedLogs store sortAsc).drop ((page - 1) * page_size)).take page_size

/-- Claim C7: the paginated list returns exactly the window of the
timestamp-ordered rows starting at offset `(page-1)*page_size`, at most
`page_size` rows; a page beyond the available rows yields the empty list. -/
theorem claim_C7_pagination (store : List Event) (page page_size : Nat) (sortAsc : Bool)
    (_hp : 1 ≤ page) (_hs : 1 ≤ page_size) :
    (get_access_logs store page page_size sortAsc).length ≤ page_size
    ∧ (∀ i, i < page_size →
        (get_access_logs store page page_size sortAsc)[i]? =
          (orderedLogs store sortAsc)[(page - 1) * page_size + i]?)
    ∧ (store.length ≤ (page - 1) * page_size →
        get_access_logs store page page_size sortAsc = [])
    ∧ (orderedLogs store sortAsc).Perm store
    ∧ (sortAsc = true → (orderedLogs store sortAsc).Sorted evAsc)
    ∧ (sortAsc = false → (orderedLogs store sortAsc).Sorted evDesc) := by
  have hperm : (orderedLogs store sortAsc).Perm store := by
    unfold orderedLogs
    cases sortAsc
    · exact List.perm_insertionSort evDesc store
    · exact List.perm_insertionSort evAsc store
  refine ⟨?_, ?_, ?_, hperm, ?_, ?_⟩
  · simp [get_access_logs, List.length_take]
  · intro i hi
    unfold get_access_logs
    rw [List.getElem?_take_of_lt hi, List.getElem?_drop]
  · intro h
    unfold get_access_logs
    rw [List.drop_eq_nil_of_le (by rw [hperm.length_eq]; omega)]
    exact List.take_nil
  · intro h
    subst h
    simpa [orderedLogs] using List.sorted_insertionSort evAsc store
  · intro h
    subst h
    simpa [orderedLogs] using List.sorted_insertionSort evDesc store

/-! ### Month/year listing (`get_logs_by_month_year`) -/

/-- `GET /access_logs/month_year`: strftime month/year filter, order desc,
`LIMIT limit`; the response reports `total = len(logs)` and `data = logs`. -/
def get_logs_by_month_year (store : List Event) (mes ano limit : Nat) :
    List Event × Nat :=
  let logs := (List.insertionSort evDesc
    (store.filter (fun ev => inMonthStrftime mes ano ev.timestamp))).take limit
  (logs, logs.length)

/-- Claim C10: the reported `total` equals the length of the returned data
list after `LIMIT` is applied, so whenever more than `limit` events match the
month it equals `limit`, not the number of matching events in the store. -/
theorem claim_C10_total_after_limit (store : List Event) (mes ano limit : Nat) :
    (get_logs_by_month_year store mes ano limit).2 =
      (get_logs_by_month_year store mes ano limit).1.length
    ∧ (limit < (store.filter (fun ev => inMonthStrftime mes ano ev.timestamp)).length →
        (get_logs_by_month_year store mes ano limit).2 = limit) := by
  refine ⟨rfl, fun h => ?_⟩
  unfold get_logs_by_month_year
  have hlen : (List.insertionSort evDesc
      (store.filter (fun ev => inMonthStrftime mes ano ev.timestamp))).length =
        (store.filter (fun ev => inMonthStrftime mes ano ev.timestamp)).length :=
    (List.perm_insertionSort _ _).length_eq
  simp only [List.length_take, hlen]
  omega

/-- Three rows, all in July 2025, for concrete pagination checks. -/
def demoStore7 : List Event :=
  [⟨1, "bob", "/home", "1.1.1.1", "X", ⟨2025, 7, 3, 10, 0, 0⟩⟩,
   ⟨2, "ana", "/blog", "2.2.2.2", "Y", ⟨2025, 7, 4, 11, 30, 0⟩⟩,
   ⟨3, "anon", "/home", "3.3.3.3", "Z", ⟨2025, 7, 5, 9, 15, 0⟩⟩]

/-- Witness for Claim C7 at `page = 2, page_size = 10` over a 3-row store:
the second page of a 3-row result is empty, not an error. -/
theorem claim_C7_pagination_witness :
    (1 ≤ 2 ∧ 1 ≤ 10) ∧
    ((get_access_logs demoStore7 2 10 false).length ≤ 10
      ∧ (∀ i, i < 10 →
          (get_access_logs demoStore7 2 10 false)[i]? =
            (orderedLogs demoStore7 false)[(2 - 1) * 10 + i]?)
      ∧ (demoStore7.length ≤ (2 - 1) * 10 →
          get_access_logs demoStore7 2 10 false = [])
      ∧ (orderedLogs demoStore7 false).Perm demoStore7
      ∧ (false = true → (orderedLogs demoStore7 false).Sorted evAsc)
      ∧ (false = false → (orderedLogs demoStore7 false).Sorted evDesc))
    ∧ get_access_logs demoStore7 2 10 false = [] :=
  ⟨⟨by decide, by decide⟩,
    claim_C7_pagination demoStore7 2 10 false (by decide) (by decide),
    by decide⟩

/-- Two July-2025 rows for the C10 witness. -/
def demoStore10 : List Event :=
  [⟨1, "bob", "/home", "1.1.1.1", "X", ⟨2025, 7, 3, 10, 0, 0⟩⟩,
   ⟨2, "ana", "/blog", "2.2.2.2", "Y", ⟨2025, 7, 4, 11, 30, 0⟩⟩]

/-- Witness for Claim C10: with 2 matching events and `limit = 1`, the
reported `total` is 1 (the truncated length), not 2. -/
theorem claim_C10_total_after_limit_witness :
    1 < (demoStore10.filter (fun ev => inMonthStrftime 7 2025 ev.timestamp)).length
    ∧ (get_logs_by_month_year demoStore10 7 2025 1).2 = 1 :=
  ⟨by decide, (claim_C10_total_after_limit demoStore10 7 2025 1).2 (by decide)⟩

/-! ### Generic embedding of `SELECT key, agg(...) GROUP BY key` -/

/-- One output row per distinct key (in first-occurrence order, which is all
the claims rely on), paired with an aggregate of that key's group. -/
def aggBy {α β : Type} [DecidableEq α] [DecidableEq β]
    (rows : List α) (key : α → β) (agg : List α → Nat) : List (β × Nat) :=
  ((rows.map key).dedup).map
    (fun k => (k, agg (rows.filter (fun x => decide (key x = k)))))

theorem mem_aggBy {α β : Type} [DecidableEq α] [DecidableEq β]
    {rows : List α} {key : α → β} {agg : List α → Nat} {r : β × Nat} :
    r ∈ aggBy rows key agg ↔
      (r.1 ∈ rows.map key ∧
        r.2 = agg (rows.filter (fun x => decide (key x = r.1)))) := by
  unfold aggBy
  rw [List.mem_map]
  constructor
  · rintro ⟨k, hk, heq⟩
    rw [← heq]
    exact ⟨List.mem_dedup.mp hk, rfl⟩
  · rintro ⟨h1, h2⟩
    refine ⟨r.1, List.mem_dedup.mpr h1, ?_⟩
    rw [← h2]

theorem keys_aggBy {α β : Type} [DecidableEq α] [DecidableEq β]
    (rows : List α) (key : α → β) (agg : List α → Nat) :
    (aggBy rows key agg).map Prod.fst = (rows.map key).dedup := by
  unfold aggBy
  generalize (rows.map key).dedup = l
  induction l with
  | nil => rfl
  | cons a as ih => simp [ih]

theorem mem_map_of_count_pos {α β : Type} [DecidableEq α] [DecidableEq β]
    {rows : List α} {key : α → β} {k : β}
    (h : 0 < (rows.filter (fun x => decide (key x = k))).length) :
    k ∈ rows.map key := by
  obtain ⟨x, hx⟩ := List.length_pos_iff_exists_mem.mp h
  obtain ⟨hx1, hx2⟩ := List.mem_filter.mp hx
  exact List.mem_map.mpr ⟨x, hx1, of_decide_eq_true hx2⟩

/-! ### Suspicious-IP detection (`get_suspicious_ips`) -/

/-- `WHERE timestamp >= start_str`; the cutoff text (rendering of
`now - timedelta(hours=hours)`) is a parameter of the pure model. -/
def recentRows (store : List Event) (cutoff : List Char) : List Event :=
  store.filter (fun ev => !strLt (tsChars ev.timestamp) cutoff)

/-- `SELECT ip, COUNT(*) GROUP BY ip` over the window. -/
def ipCounts (store : List Event) (cutoff : List Char) : List (String × Nat) :=
  aggBy (recentRows store cutoff) Event.ip List.length

/-- `/stats/suspicious_ips`: `HAVING count >= threshold ORDER BY count DESC`. -/
def get_suspicious_ips (store : List Event) (cutoff : List Char) (threshold : Nat) :
    List (String × Nat) :=
  List.insertionSort countDesc
    ((ipCounts store cutoff).filter (fun r => decide (threshold ≤ r.2)))

/-- Claim C4: the suspicious-IP report contains exactly the IPs whose event
count inside the window reaches the threshold, each paired with that count,
ordered by count descending. -/
theorem claim_C4_suspicious_ips (store : List Event) (cutoff : List Char)
    (threshold : Nat) (ht : 1 ≤ threshold) (ip : String) :
    (ip ∈ (get_suspicious_ips store cutoff threshold).map Prod.fst ↔
      threshold ≤
        ((recentRows store cutoff).filter (fun ev => decide (ev.ip = ip))).length)
    ∧ (∀ r ∈ get_suspicious_ips store cutoff threshold,
        r.2 = ((recentRows store cutoff).filter (fun ev => decide (ev.ip = r.1))).length)
    ∧ (get_suspicious_ips store cutoff threshold).Sorted countDesc := by
  have hperm := List.perm_insertionSort countDesc
    ((ipCounts store cutoff).filter (fun r => decide (threshold ≤ r.2)))
  refine ⟨?_, ?_, List.sorted_insertionSort countDesc _⟩
  · constructor
    · intro h
      obtain ⟨r, hr, hfst⟩ := List.mem_map.mp h
      have hr2 := hperm.mem_iff.mp hr
      obtain ⟨hr3, hr4⟩ := List.mem_filter.mp hr2
      obtain ⟨_, hcnt⟩ := mem_aggBy.mp hr3
      rw [← hfst, ← hcnt]
      exact of_decide_eq_true hr4
    · intro h
      refine List.mem_map.mpr ⟨(ip,
        ((recentRows store cutoff).filter (fun ev => decide (ev.ip = ip))).length),
        ?_, rfl⟩
      refine hperm.mem_iff.mpr (List.mem_filter.mpr ⟨?_, decide_eq_true h⟩)
      exact mem_aggBy.mpr
        ⟨@mem_map_of_count_pos Event String _ _ (recentRows store cutoff)
          Event.ip ip (by omega), rfl⟩
  · intro r hr
    obtain ⟨_, hcnt⟩ := mem_aggBy.mp (List.mem_filter.mp (hperm.mem_iff.mp hr)).1
    exact hcnt

/-- Window rows for the C4 witness: IP `9.9.9.9` appears 3 times inside the
window, IP `8.8.8.8` only twice. -/
def demoStore4 : List Event :=
  [⟨1, "u1", "/a", "9.9.9.9", "X", ⟨2025, 7, 3, 10, 0, 0⟩⟩,
   ⟨2, "u2", "/a", "9.9.9.9", "X", ⟨2025, 7, 3, 11, 0, 0⟩⟩,
   ⟨3, "u3", "/b", "9.9.9.9", "X", ⟨2025, 7, 3, 12, 0, 0⟩⟩,
   ⟨4, "u4", "/a", "8.8.8.8", "Y", ⟨2025, 7, 3, 13, 0, 0⟩⟩,
   ⟨5, "u5", "/b", "8.8.8.8", "Y", ⟨2025, 7, 3, 14, 0, 0⟩⟩,
   ⟨6, "u6", "/b", "8.8.8.8", "Y", ⟨2025, 7, 1, 9, 0, 0⟩⟩]

/-- Witness for Claim C4: with threshold 3 and a cutoff of
`2025-07-02 12:00:00`, the IP with exactly 3 in-window events is reported and
the IP with 2 is not. -/
theorem claim_C4_suspicious_ips_witness :
    (1 ≤ 3
      ∧ ("9.9.9.9" ∈
          (get_suspicious_ips demoStore4 (tsChars ⟨2025, 7, 2, 12, 0, 0⟩) 3).map Prod.fst ↔
        3 ≤ ((recentRows demoStore4 (tsChars ⟨2025, 7, 2, 12, 0, 0⟩)).filter
          (fun ev => decide (ev.ip = "9.9.9.9"))).length))
    ∧ "9.9.9.9" ∈
        (get_suspicious_ips demoStore4 (tsChars ⟨2025, 7, 2, 12, 0, 0⟩) 3).map Prod.fst
    ∧ "8.8.8.8" ∉
        (get_suspicious_ips demoStore4 (tsChars ⟨2025, 7, 2, 12, 0, 0⟩) 3).map Prod.fst :=
  ⟨⟨by decide,
      (claim_C4_suspicious_ips demoStore4 (tsChars ⟨2025, 7, 2, 12, 0, 0⟩) 3
        (by decide) "9.9.9.9").1⟩,
    by decide, by decide⟩

/-! ### Daily unique-visitor summary (`get_daily_summary`) -/

/-- The `CASE WHEN user_id = 'anon' THEN ip || '|' || browser ELSE user_id END`
expression: the visitor key the code actually counts. -/
def caseKey (ev : Event) : String :=
  if ev.user_id = "anon" then ev.ip ++ "|" ++ ev.browser else ev.user_id

/-- The specification's abstract visitor key: `user_id` when not anonymous,
else the pair `(ip, browser)`. -/
def specKey (ev : Event) : String ⊕ (String × String) :=
  if ev.user_id = "anon" then Sum.inr (ev.ip, ev.browser) else Sum.inl ev.user_id

/-- `WHERE date(timestamp) BETWEEN ? AND ?` (inclusive, binary text order). -/
def dateBetween (t : Timestamp) (s e : List Char) : Bool :=
  !strLt (dateChars t) s && !strLt e (dateChars t)

/-- The window rows of `/stats/daily_summary`. -/
def dailyRows (store : List Event) (s e : List Char) : List Event :=
  store.filter (fun ev => dateBetween ev.timestamp s e)

/-- `/stats/daily_summary` rows:
`(date, COUNT(*), COUNT(DISTINCT caseKey)) GROUP BY date(timestamp) ORDER BY date DESC`. -/
def get_daily_summary (store : List Event) (s e : List Char) :
    List (List Char × Nat × Nat) :=
  let rows := dailyRows store s e
  List.insertionSort dateDesc
    (((rows.map (fun ev => dateChars ev.timestamp)).dedup).map
      (fun d =>
        (d,
         (rows.filter (fun ev => decide (dateChars ev.timestamp = d))).length,
         ((rows.filter (fun ev => decide (dateChars ev.timestamp = d))).map
            caseKey).dedup.length)))

theorem toFinset_map_eq {α β : Type} [DecidableEq α] [DecidableEq β]
    (l : List α) (f : α → β) :
    (l.map f).toFinset = l.toFinset.image f := by
  induction l with
  | nil => simp
  | cons a as ih => simp [ih]

/-- Claim C1, amended: in every daily-summary row, the unique-visitor count is
the number of distinct values of the concatenated string key
`ip || '|' || browser` (for anonymous events) or `user_id` (otherwise) among
that date's window rows, and the total is that date's row count.  (The claim's
abstract pair key is only equivalent when the string encoding is injective on
the day's events; see the counterexample.) -/
theorem claim_C1_daily_unique_visitors (store : List Event) (s e : List Char)
    (d : List Char) (tot uniq : Nat)
    (h : (d, tot, uniq) ∈ get_daily_summary store s e) :
    uniq = (((dailyRows store s e).filter
        (fun ev => decide (dateChars ev.timestamp = d))).toFinset.image caseKey).card
    ∧ tot = ((dailyRows store s e).filter
        (fun ev => decide (dateChars ev.timestamp = d))).length := by
  unfold get_daily_summary at h
  have h2 := (List.perm_insertionSort dateDesc _).mem_iff.mp h
  obtain ⟨d', _, heq⟩ := List.mem_map.mp h2
  obtain ⟨e1, e2, e3⟩ : d' = d ∧
      ((dailyRows store s e).filter
        (fun ev => decide (dateChars ev.timestamp = d'))).length = tot ∧
      (((dailyRows store s e).filter
        (fun ev => decide (dateChars ev.timestamp = d'))).map caseKey).dedup.length
        = uniq := by
    have h3 := heq
    simp only [Prod.mk.injEq] at h3
    exact ⟨h3.1, h3.2.1, h3.2.2⟩
  subst e1
  constructor
  · rw [← e3, ← toFinset_map_eq, List.card_toFinset]
  · exact e2.symm

/-- Store refuting the abstract-pair reading of Claim C1: an anonymous event
with `(ip, browser) = ("1.1.1.1", "X")` and a signed-in event whose
`user_id` is the very string `"1.1.1.1|X"`. -/
def demoStore1ce : List Event :=
  [⟨1, "anon", "/a", "1.1.1.1", "X", ⟨2025, 7, 3, 10, 0, 0⟩⟩,
   ⟨2, "1.1.1.1|X", "/b", "2.2.2.2", "Y", ⟨2025, 7, 3, 11, 0, 0⟩⟩]

/-- Counterexample to Claim C1 as stated: on 2025-07-03 the two events carry
two distinct abstract visitor keys (the anonymous pair and the user id), yet
the code's daily summary reports only 1 unique visitor, because the CASE
expression maps both events to the same string `"1.1.1.1|X"`. -/
theorem claim_C1_daily_unique_visitors_counterexample :
    get_daily_summary demoStore1ce ("2025-07-01").data ("2025-07-07").data
      = [(("2025-07-03").data, 2, 1)]
    ∧ ((dailyRows demoStore1ce ("2025-07-01").data ("2025-07-07").data).toFinset.image
        specKey).card = 2 :=
  ⟨by decide, by decide⟩

/-- Store for the C1 witness: two identical anonymous events plus one from
`bob`, all on 2025-07-03. -/
def demoStore1w : List Event :=
  [⟨1, "anon", "/a", "1.1.1.1", "X", ⟨2025, 7, 3, 10, 0, 0⟩⟩,
   ⟨2, "anon", "/a", "1.1.1.1", "X", ⟨2025, 7, 3, 11, 0, 0⟩⟩,
   ⟨3, "bob", "/a", "2.2.2.2", "Y", ⟨2025, 7, 3, 12, 0, 0⟩⟩]

/-- Witness for the amended Claim C1: the merge rule's flagship example —
two anonymous events with the same `(ip, browser)` plus one `bob` event on the
same date give 3 total accesses but only 2 unique visitors. -/
theorem claim_C1_daily_unique_visitors_witness :
    ((("2025-07-03").data, 3, 2) ∈
        get_daily_summary demoStore1w ("2025-07-01").data ("2025-07-07").data)
    ∧ (2 = (((dailyRows demoStore1w ("2025-07-01").data ("2025-07-07").data).filter
          (fun ev => decide (dateChars ev.timestamp = ("2025-07-03").data))).toFinset.image
            caseKey).card
      ∧ 3 = ((dailyRows demoStore1w ("2025-07-01").data ("2025-07-07").data).filter
          (fun ev => decide (dateChars ev.timestamp = ("2025-07-03").data))).length) :=
  ⟨by decide,
    claim_C1_daily_unique_visitors demoStore1w ("2025-07-01").data ("2025-07-07").data
      ("2025-07-03").data 3 2 (by decide)⟩

/-! ### Per-page monthly rollup (`get_page_counts_and_uniques_by_month_year`) -/

/-- Rows of the requested month (`timestamp >= start AND timestamp < end`). -/
def monthRows (store : List Event) (mes ano : Nat) : List Event :=
  store.filter (fun ev => inMonthRange mes ano ev.timestamp)

/-- Rows accumulated from the beginning of time to the end of the month
(`timestamp < end`). -/
def untilRows (store : List Event) (mes ano : Nat) : List Event :=
  store.filter (fun ev => strLt (tsChars ev.timestamp) (monthEndChars mes ano))

/-- `COUNT(DISTINCT user_id)` of a group. -/
def distinctUsers (grp : List Event) : Nat := (grp.map Event.user_id).dedup.length

def month_counts (store : List Event) (mes ano : Nat) : List (String × Nat) :=
  aggBy (monthRows store mes ano) Event.page List.length

def month_uniques (store : List Event) (mes ano : Nat) : List (String × Nat) :=
  aggBy (monthRows store mes ano) Event.page distinctUsers

def until_month_counts (store : List Event) (mes ano : Nat) : List (String × Nat) :=
  aggBy (untilRows store mes ano) Event.page List.length

def until_month_uniques (store : List Event) (mes ano : Nat) : List (String × Nat) :=
  aggBy (untilRows store mes ano) Event.page distinctUsers

def total_counts (store : List Event) : List (String × Nat) :=
  aggBy store Event.page List.length

def total_uniques (store : List Event) : List (String × Nat) :=
  aggBy store Event.page distinctUsers

/-- One entry of the rollup response. -/
structure PageStats where
  page : String
  count_in_month : Nat
  unique_users_in_month : Nat
  count_until_month : Nat
  unique_users_until_month : Nat
  count_total : Nat
  unique_users_total : Nat
deriving DecidableEq, Repr

/-- `all_pages = set(month_counts) | ... | set(total_uniques)` (as a dedup of
the concatenated key lists; the subsequent sort makes the order canonical). -/
def allPages (store : List Event) (mes ano : Nat) : List String :=
  ((month_counts store mes ano).map Prod.fst ++
   (month_uniques store mes ano).map Prod.fst ++
   (until_month_counts store mes ano).map Prod.fst ++
   (until_month_uniques store mes ano).map Prod.fst ++
   (total_counts store).map Prod.fst ++
   (total_uniques store).map Prod.fst).dedup

/-- `/stats/pages_by_month_year`: one record per page of the union, each
missing dimension filled with 0 via `dict.get(page, 0)`. -/
def get_page_counts_and_uniques_by_month_year (store : List Event) (mes ano : Nat) :
    List PageStats :=
  (List.insertionSort pageAsc (allPages store mes ano)).map
    (fun p =>
      { page := p
        count_in_month := ((month_counts store mes ano).lookup p).getD 0
        unique_users_in_month := ((month_uniques store mes ano).lookup p).getD 0
        count_until_month := ((until_month_counts store mes ano).lookup p).getD 0
        unique_users_until_month := ((until_month_uniques store mes ano).lookup p).getD 0
        count_total := ((total_counts store).lookup p).getD 0
        unique_users_total := ((total_uniques store).lookup p).getD 0 })

theorem lookup_map_pair {β : Type} [DecidableEq β] [BEq β] [LawfulBEq β]
    (xs : List β) (f : β → Nat) (k : β) :
    (xs.map (fun q => (q, f q))).lookup k = if k ∈ xs then some (f k) else none := by
  induction xs with
  | nil => simp [List.lookup]
  | cons a as ih =>
    simp only [List.map_cons, List.lookup]
    by_cases h : k = a
    · subst h
      simp
    · have hb : (k == a) = false := beq_eq_false_iff_ne.mpr h
      simp [hb, List.mem_cons, h, ih]

theorem lookup_aggBy {α β : Type} [DecidableEq α] [DecidableEq β]
    [BEq β] [LawfulBEq β]
    (rows : List α) (key : α → β) (agg : List α → Nat) (k : β) :
    (aggBy rows key agg).lookup k =
      if k ∈ rows.map key
        then some (agg (rows.filter (fun x => decide (key x = k))))
        else none := by
  unfold aggBy
  rw [lookup_map_pair]
  by_cases h : k ∈ (rows.map key).dedup
  · rw [if_pos h, if_pos (List.mem_dedup.mp h)]
  · rw [if_neg h, if_neg (fun hc => h (List.mem_dedup.mpr hc))]

/-- Claim C3: the pages of the rollup are exactly the union of the keys of
the six aggregations; a page absent from an aggregation gets 0 for that
field — the two in-month fields when it has no in-month rows, the two
until-end-of-month fields when it has no rows before the month's end, the two
all-time fields when it has no rows at all (each pair of aggregations shares
its row set, hence its key set) — and any page with any historical activity
appears. -/
theorem claim_C3_page_union (store : List Event) (mes ano : Nat) (p : String) :
    (p ∈ (get_page_counts_and_uniques_by_month_year store mes ano).map PageStats.page ↔
      (p ∈ (month_counts store mes ano).map Prod.fst ∨
       p ∈ (month_uniques store mes ano).map Prod.fst ∨
       p ∈ (until_month_counts store mes ano).map Prod.fst ∨
       p ∈ (until_month_uniques store mes ano).map Prod.fst ∨
       p ∈ (total_counts store).map Prod.fst ∨
       p ∈ (total_uniques store).map Prod.fst))
    ∧ (∀ st ∈ get_page_counts_and_uniques_by_month_year store mes ano,
        (st.page ∉ (monthRows store mes ano).map Event.page →
          st.count_in_month = 0 ∧ st.unique_users_in_month = 0)
        ∧ (st.page ∉ (untilRows store mes ano).map Event.page →
          st.count_until_month = 0 ∧ st.unique_users_until_month = 0)
        ∧ (st.page ∉ store.map Event.page →
          st.count_total = 0 ∧ st.unique_users_total = 0))
    ∧ (p ∈ store.map Event.page →
        p ∈ (get_page_counts_and_uniques_by_month_year store mes ano).map PageStats.page) := by
  have hpages : (get_page_counts_and_uniques_by_month_year store mes ano).map PageStats.page
      = List.insertionSort pageAsc (allPages store mes ano) := by
    unfold get_page_counts_and_uniques_by_month_year
    generalize List.insertionSort pageAsc (allPages store mes ano) = l
    induction l with
    | nil => rfl
    | cons a as ih => simp [ih]
  have hmem : ∀ q : String,
      (q ∈ (get_page_counts_and_uniques_by_month_year store mes ano).map PageStats.page ↔
        q ∈ allPages store mes ano) := by
    intro q
    rw [hpages]
    exact (List.perm_insertionSort pageAsc _).mem_iff
  refine ⟨?_, ?_, ?_⟩
  · rw [hmem p]
    unfold allPages
    simp [List.mem_dedup, List.mem_append, or_assoc]
  · intro st hst
    obtain ⟨q, _, heq⟩ := List.mem_map.mp hst
    have hq : st.page = q := by rw [← heq]
    have hc1 : st.count_in_month = ((month_counts store mes ano).lookup q).getD 0 := by
      rw [← heq]
    have hc2 : st.unique_users_in_month
        = ((month_uniques store mes ano).lookup q).getD 0 := by
      rw [← heq]
    have hc3 : st.count_until_month
        = ((until_month_counts store mes ano).lookup q).getD 0 := by
      rw [← heq]
    have hc4 : st.unique_users_until_month
        = ((until_month_uniques store mes ano).lookup q).getD 0 := by
      rw [← heq]
    have hc5 : st.count_total = ((total_counts store).lookup q).getD 0 := by
      rw [← heq]
    have hc6 : st.unique_users_total = ((total_uniques store).lookup q).getD 0 := by
      rw [← heq]
    rw [hq]
    refine ⟨fun hnomonth => ⟨?_, ?_⟩, fun hnountil => ⟨?_, ?_⟩, fun hnototal => ⟨?_, ?_⟩⟩
    · rw [hc1]
      unfold month_counts
      rw [lookup_aggBy, if_neg hnomonth]
      rfl
    · rw [hc2]
      unfold month_uniques
      rw [lookup_aggBy, if_neg hnomonth]
      rfl
    · rw [hc3]
      unfold until_month_counts
      rw [lookup_aggBy, if_neg hnountil]
      rfl
    · rw [hc4]
      unfold until_month_uniques
      rw [lookup_aggBy, if_neg hnountil]
      rfl
    · rw [hc5]
      unfold total_counts
      rw [lookup_aggBy, if_neg hnototal]
      rfl
    · rw [hc6]
      unfold total_uniques
      rw [lookup_aggBy, if_neg hnototal]
      rfl
  · intro hp
    rw [hmem p]
    unfold allPages
    have : p ∈ (total_counts store).map Prod.fst := by
      unfold total_counts
      rw [keys_aggBy]
      exact List.mem_dedup.mpr hp
    simp [List.mem_dedup, List.mem_append, this]

/-- Store for the C3 witness: `/old` has only June-2025 history, `/new` has a
July-2025 event, and `/future` has only an August-2025 event (so it is missing
from both the in-month and the until-end-of-month aggregations of July). -/
def demoStore3 : List Event :=
  [⟨1, "u", "/old", "1.1.1.1", "X", ⟨2025, 6, 10, 12, 0, 0⟩⟩,
   ⟨2, "v", "/new", "2.2.2.2", "Y", ⟨2025, 7, 3, 9, 0, 0⟩⟩,
   ⟨3, "w", "/future", "3.3.3.3", "Z", ⟨2025, 8, 2, 8, 0, 0⟩⟩]

/-- Witness for Claim C3 at July 2025: `/old` has zero current-month activity
but still appears, with its in-month fields 0 and its historical fields 1;
`/future` (only post-month activity) appears with its in-month AND
until-end-of-month fields all 0 and its all-time fields 1. -/
theorem claim_C3_page_union_witness :
    (("/old" ∈
        (get_page_counts_and_uniques_by_month_year demoStore3 7 2025).map PageStats.page ↔
      ("/old" ∈ (month_counts demoStore3 7 2025).map Prod.fst ∨
       "/old" ∈ (month_uniques demoStore3 7 2025).map Prod.fst ∨
       "/old" ∈ (until_month_counts demoStore3 7 2025).map Prod.fst ∨
       "/old" ∈ (until_month_uniques demoStore3 7 2025).map Prod.fst ∨
       "/old" ∈ (total_counts demoStore3).map Prod.fst ∨
       "/old" ∈ (total_uniques demoStore3).map Prod.fst)))
    ∧ get_page_counts_and_uniques_by_month_year demoStore3 7 2025 =
        [⟨"/future", 0, 0, 0, 0, 1, 1⟩, ⟨"/new", 1, 1, 1, 1, 1, 1⟩,
         ⟨"/old", 0, 0, 1, 1, 1, 1⟩] :=
  ⟨(claim_C3_page_union demoStore3 7 2025 "/old").1, by decide⟩

/-! ### Claim C9: the rollup's distinct-user counts use raw `user_id` -/

theorem dedup_const {β : Type} [DecidableEq β] (l : List β) (a : β)
    (hne : l ≠ []) (hall : ∀ x ∈ l, x = a) : l.dedup = [a] := by
  induction l with
  | nil => exact absurd rfl hne
  | cons x xs ih =>
    have hx : x = a := hall x (List.mem_cons_self x xs)
    subst hx
    by_cases hmem : x ∈ xs
    · rw [List.dedup_cons_of_mem hmem]
      exact ih (List.ne_nil_of_mem hmem) (fun y hy => hall y (List.mem_cons_of_mem x hy))
    · have hxs : xs = [] := by
        cases xs with
        | nil => rfl
        | cons y ys =>
          have : y = x := hall y (List.mem_cons_of_mem x (List.mem_cons_self y ys))
          exact absurd (this ▸ List.mem_cons_self y ys) hmem
      subst hxs
      rfl

theorem filter_map_nonempty {α β : Type} [DecidableEq β]
    {rows : List α} {key : α → β} {k : β} (h : k ∈ rows.map key) :
    rows.filter (fun x => decide (key x = k)) ≠ [] := by
  obtain ⟨x, hx, hk⟩ := List.mem_map.mp h
  exact List.ne_nil_of_mem (List.mem_filter.mpr ⟨hx, decide_eq_true hk⟩)

/-- Claim C9: every distinct-user dimension of the rollup counts raw
`user_id` values — each row's value is literally `COUNT(DISTINCT user_id)` of
its group, with no `(ip, browser)` merge — so in an all-anonymous store every
page reports exactly one distinct user however many `(ip, browser)` pairs
its events carry. -/
theorem claim_C9_rollup_raw_user_ids (store : List Event) (mes ano : Nat)
    (hanon : ∀ ev ∈ store, ev.user_id = "anon") :
    (∀ r ∈ month_uniques store mes ano,
        r.2 = (((monthRows store mes ano).filter
          (fun ev => decide (ev.page = r.1))).map Event.user_id).dedup.length)
    ∧ (∀ p, p ∈ (monthRows store mes ano).map Event.page →
        (month_uniques store mes ano).lookup p = some 1)
    ∧ (∀ p, p ∈ (untilRows store mes ano).map Event.page →
        (until_month_uniques store mes ano).lookup p = some 1)
    ∧ (∀ p, p ∈ store.map Event.page →
        (total_uniques store).lookup p = some 1) := by
  have hone : ∀ (rows : List Event), (∀ ev ∈ rows, ev.user_id = "anon") →
      ∀ p, p ∈ rows.map Event.page →
        distinctUsers (rows.filter (fun ev => decide (ev.page = p))) = 1 := by
    intro rows hrows p hp
    unfold distinctUsers
    have hne : ((rows.filter (fun ev => decide (ev.page = p))).map Event.user_id) ≠ [] :=
      fun hc => filter_map_nonempty hp (List.map_eq_nil_iff.mp hc)
    have hall : ∀ x ∈ (rows.filter (fun ev => decide (ev.page = p))).map Event.user_id,
        x = "anon" := by
      intro u hu
      obtain ⟨ev, hev, hevu⟩ := List.mem_map.mp hu
      rw [← hevu]
      exact hrows ev (List.mem_filter.mp hev).1
    rw [dedup_const _ "anon" hne hall]
    rfl
  refine ⟨?_, ?_, ?_, ?_⟩
  · intro r hr
    exact (mem_aggBy.mp hr).2
  · intro p hp
    unfold month_uniques
    rw [lookup_aggBy, if_pos hp]
    exact congrArg some (hone (monthRows store mes ano)
      (fun ev hev => hanon ev (List.mem_filter.mp hev).1) p hp)
  · intro p hp
    unfold until_month_uniques
    rw [lookup_aggBy, if_pos hp]
    exact congrArg some (hone (untilRows store mes ano)
      (fun ev hev => hanon ev (List.mem_filter.mp hev).1) p hp)
  · intro p hp
    unfold total_uniques
    rw [lookup_aggBy, if_pos hp]
    exact congrArg some (hone store hanon p hp)

/-- Store for the C9 witness: two anonymous events on the same page with
different `(ip, browser)` pairs. -/
def demoStore9 : List Event :=
  [⟨1, "anon", "/a", "1.1.1.1", "X", ⟨2025, 7, 3, 10, 0, 0⟩⟩,
   ⟨2, "anon", "/a", "2.2.2.2", "Y", ⟨2025, 7, 3, 11, 0, 0⟩⟩]

/-- Witness for Claim C9: in the all-anonymous store the rollup reports one
distinct user for `/a`, while the daily summary's merge rule sees two distinct
visitor keys on 2025-07-03. -/
theorem claim_C9_rollup_raw_user_ids_witness :
    (∀ ev ∈ demoStore9, ev.user_id = "anon")
    ∧ (∀ p, p ∈ (monthRows demoStore9 7 2025).map Event.page →
        (month_uniques demoStore9 7 2025).lookup p = some 1)
    ∧ (month_uniques demoStore9 7 2025).lookup "/a" = some 1
    ∧ get_daily_summary demoStore9 ("2025-07-01").data ("2025-07-07").data
        = [(("2025-07-03").data, 2, 2)] :=
  ⟨by decide,
    (claim_C9_rollup_raw_user_ids demoStore9 7 2025 (by decide)).2.1,
    by decide, by decide⟩

/-! ### Per-page monthly recurrence histogram (`get_recurrence_by_page`) -/

/-- The fixed bucket record `{"1x": _, "2x": _, "3x": _, "4x": _, "5x_or_more": _}`. -/
structure Freq where
  one_x : Nat
  two_x : Nat
  three_x : Nat
  four_x : Nat
  five_or_more : Nat
deriving DecidableEq, Repr

/-- The if/elif chain of the source: each user's access count increments one
bucket. -/
def applyBucket (f : Freq) (c : Nat) : Freq :=
  if c = 1 then { f with one_x := f.one_x + 1 }
  else if c = 2 then { f with two_x := f.two_x + 1 }
  else if c = 3 then { f with three_x := f.three_x + 1 }
  else if c = 4 then { f with four_x := f.four_x + 1 }
  else { f with five_or_more := f.five_or_more + 1 }

/-- `SELECT page, user_id, COUNT(*) GROUP BY page, user_id` over the month. -/
def pairCounts (rows : List Event) : List ((String × String) × Nat) :=
  aggBy rows (fun ev => (ev.page, ev.user_id)) List.length

/-- The per-user access-count list collected for one page (`page_user_counts`). -/
def userCountsFor (rows : List Event) (p : String) : List Nat :=
  ((pairCounts rows).filter (fun r => decide (r.1.1 = p))).map Prod.snd

/-- One entry of the recurrence response. -/
structure RecRow where
  page : String
  freq : Freq
  max_accesses : Nat
deriving DecidableEq, Repr

/-- `/stats/recurrence_by_page`. -/
def get_recurrence_by_page (store : List Event) (mes ano : Nat) : List RecRow :=
  (((pairCounts (monthRows store mes ano)).map (fun r => r.1.1)).dedup).map
    (fun p =>
      { page := p
        freq := (userCountsFor (monthRows store mes ano) p).foldl applyBucket ⟨0, 0, 0, 0, 0⟩
        max_accesses := (userCountsFor (monthRows store mes ano) p).foldl max 0 })

theorem foldl_applyBucket_one (cs : List Nat) : ∀ f : Freq,
    (cs.foldl applyBucket f).one_x = f.one_x + cs.countP (fun c => decide (c = 1)) := by
  induction cs with
  | nil => intro f; simp
  | cons c cs ih =>
    intro f
    rw [List.foldl_cons, ih, List.countP_cons]
    unfold applyBucket
    by_cases h1 : c = 1 <;> by_cases h2 : c = 2 <;> by_cases h3 : c = 3 <;>
      by_cases h4 : c = 4 <;> simp [h1, h2, h3, h4] <;> omega

theorem foldl_applyBucket_two (cs : List Nat) : ∀ f : Freq,
    (cs.foldl applyBucket f).two_x = f.two_x + cs.countP (fun c => decide (c = 2)) := by
  induction cs with
  | nil => intro f; simp
  | cons c cs ih =>
    intro f
    rw [List.foldl_cons, ih, List.countP_cons]
    unfold applyBucket
    by_cases h1 : c = 1 <;> by_cases h2 : c = 2 <;> by_cases h3 : c = 3 <;>
      by_cases h4 : c = 4 <;> simp [h1, h2, h3, h4] <;> omega

theorem foldl_applyBucket_three (cs : List Nat) : ∀ f : Freq,
    (cs.foldl applyBucket f).three_x = f.three_x + cs.countP (fun c => decide (c = 3)) := by
  induction cs with
  | nil => intro f; simp
  | cons c cs ih =>
    intro f
    rw [List.foldl_cons, ih, List.countP_cons]
    unfold applyBucket
    by_cases h1 : c = 1 <;> by_cases h2 : c = 2 <;> by_cases h3 : c = 3 <;>
      by_cases h4 : c = 4 <;> simp [h1, h2, h3, h4] <;> omega

theorem foldl_applyBucket_four (cs : List Nat) : ∀ f : Freq,
    (cs.foldl applyBucket f).four_x = f.four_x + cs.countP (fun c => decide (c = 4)) := by
  induction cs with
  | nil => intro f; simp
  | cons c cs ih =>
    intro f
    rw [List.foldl_cons, ih, List.countP_cons]
    unfold applyBucket
    by_cases h1 : c = 1 <;> by_cases h2 : c = 2 <;> by_cases h3 : c = 3 <;>
      by_cases h4 : c = 4 <;> simp [h1, h2, h3, h4] <;> omega

theorem foldl_applyBucket_five (cs : List Nat) : ∀ f : Freq,
    (cs.foldl applyBucket f).five_or_more =
      f.five_or_more + cs.countP (fun c => decide (¬ (c = 1 ∨ c = 2 ∨ c = 3 ∨ c = 4))) := by
  induction cs with
  | nil => intro f; simp
  | cons c cs ih =>
    intro f
    rw [List.foldl_cons, ih, List.countP_cons]
    unfold applyBucket
    by_cases h1 : c = 1 <;> by_cases h2 : c = 2 <;> by_cases h3 : c = 3 <;>
      by_cases h4 : c = 4 <;> simp [h1, h2, h3, h4] <;> omega

/-- Each count increments exactly one bucket exactly once: the five bucket
totals grow by precisely the number of processed counts. -/
theorem foldl_applyBucket_total (cs : List Nat) : ∀ f : Freq,
    (cs.foldl applyBucket f).one_x + (cs.foldl applyBucket f).two_x +
      (cs.foldl applyBucket f).three_x + (cs.foldl applyBucket f).four_x +
      (cs.foldl applyBucket f).five_or_more
    = f.one_x + f.two_x + f.three_x + f.four_x + f.five_or_more + cs.length := by
  induction cs with
  | nil => intro f; simp
  | cons c cs ih =>
    intro f
    rw [List.foldl_cons, ih, List.length_cons]
    unfold applyBucket
    by_cases h1 : c = 1 <;> by_cases h2 : c = 2 <;> by_cases h3 : c = 3 <;>
      by_cases h4 : c = 4 <;> simp [h1, h2, h3, h4] <;> omega

theorem le_foldl_max (cs : List Nat) : ∀ init : Nat, init ≤ cs.foldl max init := by
  induction cs with
  | nil => intro init; exact le_refl _
  | cons x xs ih =>
    intro init
    rw [List.foldl_cons]
    exact le_trans (le_max_left _ _) (ih _)

theorem foldl_max_ge (cs : List Nat) : ∀ init : Nat, ∀ c ∈ cs, c ≤ cs.foldl max init := by
  induction cs with
  | nil => intro init c hc; cases hc
  | cons x xs ih =>
    intro init c hc
    rw [List.foldl_cons]
    rcases List.mem_cons.mp hc with h | h
    · subst h
      exact le_trans (le_max_right _ _) (le_foldl_max xs _)
    · exact ih _ c h

theorem foldl_max_mem (cs : List Nat) : ∀ init : Nat,
    cs.foldl max init = init ∨ cs.foldl max init ∈ cs := by
  induction cs with
  | nil => intro init; exact Or.inl rfl
  | cons x xs ih =>
    intro init
    rw [List.foldl_cons]
    rcases ih (max init x) with h | h
    · rcases max_choice init x with hm | hm
      · exact Or.inl (by rw [h, hm])
      · refine Or.inr ?_
        rw [h, hm]
        exact List.mem_cons_self x xs
    · exact Or.inr (List.mem_cons_of_mem x h)

/-- Claim C6: in every recurrence row, each bucket counts exactly the
distinct `(page, user)` groups whose in-month access count falls in that
bucket (`k` for `k ∈ 1..4`, at least 5 for the last), every group lands in
exactly one bucket (the five bucket totals sum to the number of groups), every
count is at least 1, and `max_accesses_by_single_user` is the maximum group
count (0 only for the impossible empty case). -/
theorem claim_C6_recurrence (store : List Event) (mes ano : Nat) (r : RecRow)
    (hr : r ∈ get_recurrence_by_page store mes ano) :
    r.freq.one_x = (userCountsFor (monthRows store mes ano) r.page).countP
        (fun c => decide (c = 1))
    ∧ r.freq.two_x = (userCountsFor (monthRows store mes ano) r.page).countP
        (fun c => decide (c = 2))
    ∧ r.freq.three_x = (userCountsFor (monthRows store mes ano) r.page).countP
        (fun c => decide (c = 3))
    ∧ r.freq.four_x = (userCountsFor (monthRows store mes ano) r.page).countP
        (fun c => decide (c = 4))
    ∧ r.freq.five_or_more = (userCountsFor (monthRows store mes ano) r.page).countP
        (fun c => decide (5 ≤ c))
    ∧ r.freq.one_x + r.freq.two_x + r.freq.three_x + r.freq.four_x + r.freq.five_or_more
        = (userCountsFor (monthRows store mes ano) r.page).length
    ∧ (∀ c ∈ userCountsFor (monthRows store mes ano) r.page, 1 ≤ c)
    ∧ (∀ c ∈ userCountsFor (monthRows store mes ano) r.page, c ≤ r.max_accesses)
    ∧ (r.max_accesses = 0 ∨ r.max_accesses ∈ userCountsFor (monthRows store mes ano) r.page) := by
  obtain ⟨p, hp, heq⟩ := List.mem_map.mp hr
  have hpage : r.page = p := by rw [← heq]
  subst hpage
  have hfreq : r.freq = (userCountsFor (monthRows store mes ano) r.page).foldl
      applyBucket ⟨0, 0, 0, 0, 0⟩ := by rw [← heq]
  have hmax : r.max_accesses = (userCountsFor (monthRows store mes ano) r.page).foldl max 0 := by
    rw [← heq]
  have hpos : ∀ c ∈ userCountsFor (monthRows store mes ano) r.page, 1 ≤ c := by
    intro c hc
    obtain ⟨q, hq, hqc⟩ := List.mem_map.mp hc
    obtain ⟨hq1, _⟩ := List.mem_filter.mp hq
    obtain ⟨hk, hcnt⟩ := mem_aggBy.mp hq1
    have hne := filter_map_nonempty hk
    rw [← hqc, hcnt]
    have := List.length_pos.mpr hne
    omega
  refine ⟨?_, ?_, ?_, ?_, ?_, ?_, hpos, ?_, ?_⟩
  · rw [hfreq, foldl_applyBucket_one]
    show 0 + _ = _
    rw [Nat.zero_add]
  · rw [hfreq, foldl_applyBucket_two]
    show 0 + _ = _
    rw [Nat.zero_add]
  · rw [hfreq, foldl_applyBucket_three]
    show 0 + _ = _
    rw [Nat.zero_add]
  · rw [hfreq, foldl_applyBucket_four]
    show 0 + _ = _
    rw [Nat.zero_add]
  · rw [hfreq, foldl_applyBucket_five]
    show 0 + _ = _
    rw [Nat.zero_add]
    apply List.countP_congr
    intro c hc
    have := hpos c hc
    constructor
    · intro hdec
      have hprop := of_decide_eq_true hdec
      exact decide_eq_true (by omega)
    · intro hdec
      have hprop := of_decide_eq_true hdec
      exact decide_eq_true (by omega)
  · rw [hfreq, foldl_applyBucket_total]
    show 0 + 0 + 0 + 0 + 0 + _ = _
    simp
  · intro c hc
    rw [hmax]
    exact foldl_max_ge _ 0 c hc
  · rw [hmax]
    exact foldl_max_mem _ 0

/-- Store for the C6 witness: user `u` accesses `/a` five times in July 2025. -/
def demoStore6 : List Event :=
  [⟨1, "u", "/a", "1.1.1.1", "X", ⟨2025, 7, 3, 10, 0, 0⟩⟩,
   ⟨2, "u", "/a", "1.1.1.1", "X", ⟨2025, 7, 4, 10, 0, 0⟩⟩,
   ⟨3, "u", "/a", "1.1.1.1", "X", ⟨2025, 7, 5, 10, 0, 0⟩⟩,
   ⟨4, "u", "/a", "1.1.1.1", "X", ⟨2025, 7, 6, 10, 0, 0⟩⟩,
   ⟨5, "u", "/a", "1.1.1.1", "X", ⟨2025, 7, 7, 10, 0, 0⟩⟩]

/-- Witness for Claim C6: the single user with 5 accesses increments exactly
the `5x_or_more` bucket once, and `max_accesses_by_single_user` is 5. -/
theorem claim_C6_recurrence_witness :
    (⟨"/a", ⟨0, 0, 0, 0, 1⟩, 5⟩ : RecRow) ∈ get_recurrence_by_page demoStore6 7 2025
    ∧ (⟨"/a", ⟨0, 0, 0, 0, 1⟩, 5⟩ : RecRow).freq.five_or_more =
        (userCountsFor (monthRows demoStore6 7 2025) "/a").countP (fun c => decide (5 ≤ c))
    ∧ get_recurrence_by_page demoStore6 7 2025 = [⟨"/a", ⟨0, 0, 0, 0, 1⟩, 5⟩] :=
  ⟨by decide,
    (claim_C6_recurrence demoStore6 7 2025 ⟨"/a", ⟨0, 0, 0, 0, 1⟩, 5⟩ (by decide)).2.2.2.2.1,
    by decide⟩

/-! ### Date-range filter (`get_logs_by_date_range`) -/

/-- Error surface of the HTTP layer. -/
inductive ApiError where
  | invalidArgument (msg : String)
deriving DecidableEq, Repr

/-- `GET /access_logs/date_range` as implemented: the raw strings are bound
as SQL parameters and compared with BINARY-collation BETWEEN against
`date(timestamp)`.  The source's `except ValueError` branch (the intended
InvalidArgument rejection) is unreachable: binding a string parameter never
raises `ValueError`, so every input — malformed or not — reaches storage and
yields an `ok` result. -/
def get_logs_by_date_range (store : List Event) (start_date end_date : String) :
    Except ApiError (List Event) :=
  Except.ok (List.insertionSort evDesc
    (store.filter (fun ev => dateBetween ev.timestamp start_date.data end_date.data)))

/-- Claim C5 evaluated at failing inputs: with a malformed `start_date` the
code does not fail with InvalidArgument; it silently returns a result set —
empty for `"31/12/2025"`, and even the whole (ordered) store for the garbage
range `"0" .. "A"`, because `'0' < '2' < 'A'` in binary order. -/
theorem claim_C5_malformed_dates_not_rejected :
    get_logs_by_date_range demoStore7 "31/12/2025" "2025-01-01" = Except.ok []
    ∧ get_logs_by_date_range demoStore7 "0" "A" =
        Except.ok [demoStore7.get ⟨2, by decide⟩, demoStore7.get ⟨1, by decide⟩,
          demoStore7.get ⟨0, by decide⟩]
    ∧ (∀ r : ApiError, get_logs_by_date_range demoStore7 "31/12/2025" "2025-01-01"
        ≠ Except.error r) :=
  ⟨rfl, rfl, fun r h => by simp [get_logs_by_date_range] at h⟩

/-! ### Export / import (`backup_sqlite` + `restaura_db.py`) -/

/-- State of the SQLite file `analytics.db` at the `access_logs` level:
whether the table exists, and its rows (ids included). -/
structure DB where
  hasTable : Bool
  rows : List Event
deriving DecidableEq, Repr

/-- One statement of the dump produced by `conn.iterdump()`. -/
inductive Stmt where
  | createTable
  | createIndex
  | insertRow (r : Event)
deriving DecidableEq, Repr

/-- `backup_sqlite` streams `conn.iterdump()`: the table DDL exactly as stored
in `sqlite_master` (no IF NOT EXISTS), one INSERT per row with explicit `id`,
then the index DDL. -/
def backup_sqlite (db : DB) : List Stmt :=
  Stmt.createTable :: (db.rows.map Stmt.insertRow) ++ [Stmt.createIndex]

/-- Executing one dump statement: `CREATE TABLE access_logs` fails when the
table already exists. -/
def execStmt (db : DB) : Stmt → Except String DB
  | Stmt.createTable =>
      if db.hasTable then Except.error "table access_logs already exists"
      else Except.ok ⟨true, []⟩
  | Stmt.createIndex =>
      if db.hasTable then Except.ok db else Except.error "no such table"
  | Stmt.insertRow r =>
      if db.hasTable then Except.ok ⟨true, db.rows ++ [r]⟩
      else Except.error "no such table"

/-- `cursor.executescript(script)`: statements run in order and the first
failure aborts the rest. -/
def runScript (db : DB) : List Stmt → Except String DB
  | [] => Except.ok db
  | s :: ss =>
      match execStmt db s with
      | Except.ok db2 => runScript db2 ss
      | Except.error e => Except.error e

/-- `restaurar_backup`: replays the script; on any failure the error is
reported and, since the dump is wrapped in `BEGIN TRANSACTION ... COMMIT` and
the connection closes without commit, the store is left as it was. -/
def restaurar_backup (db : DB) (script : List Stmt) : DB × Option String :=
  match runScript db script with
  | Except.ok db2 => (db2, none)
  | Except.error e => (db, some e)

theorem runScript_inserts (rs : List Event) : ∀ (acc : List Event) (tail : List Stmt),
    runScript ⟨true, acc⟩ ((rs.map Stmt.insertRow) ++ tail)
      = runScript ⟨true, acc ++ rs⟩ tail := by
  induction rs with
  | nil => intro acc tail; simp
  | cons r rs ih =>
    intro acc tail
    show runScript ⟨true, acc ++ [r]⟩ ((rs.map Stmt.insertRow) ++ tail)
        = runScript ⟨true, acc ++ r :: rs⟩ tail
    rw [ih (acc ++ [r]) tail, ← List.append_cons]

theorem runScript_backup (rows : List Event) :
    runScript ⟨false, []⟩ (backup_sqlite ⟨true, rows⟩) = Except.ok ⟨true, rows⟩ := by
  unfold backup_sqlite
  dsimp only
  have h0 : (Stmt.createTable :: rows.map Stmt.insertRow) ++ [Stmt.createIndex]
      = Stmt.createTable :: ((rows.map Stmt.insertRow) ++ [Stmt.createIndex]) := by
    simp
  rw [h0]
  have h1 : runScript ⟨false, []⟩
      (Stmt.createTable :: ((rows.map Stmt.insertRow) ++ [Stmt.createIndex]))
      = runScript ⟨true, []⟩ ((rows.map Stmt.insertRow) ++ [Stmt.createIndex]) := rfl
  rw [h1, runScript_inserts rows [] [Stmt.createIndex]]
  rfl

/-- Claim C8, amended: exporting and importing into an empty store (no table
yet) reproduces exactly the same rows, ids included; importing into a store
that already has the `access_logs` table does NOT duplicate the rows — the
replayed `CREATE TABLE` (dumped without IF NOT EXISTS) fails, the import
reports the error, and the store is left unchanged. -/
theorem claim_C8_export_import (rows : List Event) (db : DB)
    (h : db.hasTable = true) :
    restaurar_backup ⟨false, []⟩ (backup_sqlite ⟨true, rows⟩) = (⟨true, rows⟩, none)
    ∧ restaurar_backup db (backup_sqlite ⟨true, rows⟩)
        = (db, some "table access_logs already exists") := by
  constructor
  · unfold restaurar_backup
    rw [runScript_backup rows]
  · unfold restaurar_backup backup_sqlite
    dsimp only
    have h0 : (Stmt.createTable :: rows.map Stmt.insertRow) ++ [Stmt.createIndex]
        = Stmt.createTable :: ((rows.map Stmt.insertRow) ++ [Stmt.createIndex]) := by
      simp
    rw [h0]
    have h2 : execStmt db Stmt.createTable
        = Except.error "table access_logs already exists" := by
      unfold execStmt
      rw [h]
      rfl
    simp only [runScript, h2]

/-- A one-row store for the C8 counterexample and witness. -/
def demoDb8 : DB :=
  ⟨true, [⟨1, "bob", "/home", "1.1.1.1", "X", ⟨2025, 7, 3, 10, 0, 0⟩⟩]⟩

/-- Counterexample to Claim C8 as stated: replaying the dump of `demoDb8`
into `demoDb8` itself (a store already containing the same rows) does not
duplicate the rows — the row count stays 1 and the import reports an error. -/
theorem claim_C8_export_import_counterexample :
    (restaurar_backup demoDb8 (backup_sqlite demoDb8)).1.rows.length = 1
    ∧ (restaurar_backup demoDb8 (backup_sqlite demoDb8)).2
        = some "table access_logs already exists" :=
  ⟨by decide, by decide⟩

/-- Witness for the amended Claim C8 at the one-row store. -/
theorem claim_C8_export_import_witness :
    demoDb8.hasTable = true
    ∧ (restaurar_backup ⟨false, []⟩ (backup_sqlite ⟨true, demoDb8.rows⟩)
        = (⟨true, demoDb8.rows⟩, none)
      ∧ restaurar_backup demoDb8 (backup_sqlite ⟨true, demoDb8.rows⟩)
          = (demoDb8, some "table access_logs already exists")) :=
  ⟨by decide, claim_C8_export_import demoDb8.rows demoDb8 (by decide)⟩

end Analytics
